import Mathlib

/-!
Verification of the mutation-observer registry and the collapsible-details
widget of the `helpers` repository, via a shallow embedding of the
TypeScript sources into Lean.

Part 1 models the mutation-registry module (`MutationObserverHelper`):
a module-level map from observed root elements to an `ObserverInfo`
record holding the confirmed-element set and the native watcher.
Elements are abstracted as natural numbers; DOM nodes may also be
non-element nodes.  Ghost fields (`created`, `subscribers`, `connected`)
instrument the model with facts that in the browser live inside the
native `MutationObserver` object: how many native observers have been
constructed, how many subscribe calls share an entry, and whether the
watcher is still connected.
-/

namespace MutationRegistry

/-- An element identity (HTMLElement / SVGElement abstracted). -/
abbrev Elem := Nat

/-- A DOM node: either an element or some other node kind (text, comment…). -/
inductive DomNode where
  | elem (e : Elem)
  | other
deriving DecidableEq, Repr

/-- Mutation record types; the source only reacts to childList records. -/
inductive RecType where
  | childList
  | otherType
deriving DecidableEq, Repr

/-- One native mutation record: the nodes added and removed in one step. -/
structure MutationRecord where
  recType : RecType
  addedNodes : List DomNode
  removedNodes : List DomNode
deriving DecidableEq, Repr

/-- Synthesized event types dispatched by `triggerEvent`. -/
inductive EvType where
  | added
  | deleted
deriving DecidableEq, Repr

/-- One synthesized notification: event type together with the element. -/
abbrev Event := EvType × Elem

/-- One registry entry, as in the source `ObserverInfo` interface:
the confirmed-element set and the native observer.  `connected` is the
native watcher's connection status (true after `observe`, false after
`disconnect`); `subscribers` is ghost state counting how many subscribe
calls currently share this entry. -/
structure ObserverInfo where
  confirmedElements : List Elem
  connected : Bool
  subscribers : Nat
deriving DecidableEq, Repr

/-- The module-level state: the `observers` map (association list keyed by
root element; the source keeps at most one entry per root) plus the ghost
count `created` of native MutationObservers constructed so far. -/
structure RegistryState where
  observers : List (Elem × ObserverInfo)
  created : Nat
deriving DecidableEq, Repr

/-- The empty registry, as at module load. -/
def initRegistry : RegistryState := { observers := [], created := 0 }

/-- `observers.get(root)`. -/
def lookupObs (m : List (Elem × ObserverInfo)) (root : Elem) : Option ObserverInfo :=
  match m with
  | [] => none
  | (r, info) :: rest => if r = root then some info else lookupObs rest root

/-- Update the entry for `root` (no-op if absent). -/
def updateObs (m : List (Elem × ObserverInfo)) (root : Elem)
    (f : ObserverInfo → ObserverInfo) : List (Elem × ObserverInfo) :=
  match m with
  | [] => []
  | (r, info) :: rest =>
      if r = root then (r, f info) :: rest else (r, info) :: updateObs rest root f

/-- `MutationObserverHelper(callback, {observeElement: root, …})`, restricted
to its registry effect: retrieve the existing `ObserverInfo` for the root,
or create a fresh one, register it in the map and start the native watch.
Creating increments the ghost `created` counter; either way the ghost
subscriber count of the entry grows by one. -/
def subscribe (root : Elem) (st : RegistryState) : RegistryState :=
  match lookupObs st.observers root with
  | some _ =>
      { st with observers :=
          updateObs st.observers root (fun i => { i with subscribers := i.subscribers + 1 }) }
  | none =>
      { observers :=
          (root, { confirmedElements := [], connected := true, subscribers := 1 })
            :: st.observers,
        created := st.created + 1 }

/-- The handle's `unobserve(element)` with an element argument: remove that
element from the entry's confirmed set; the watch itself is untouched. -/
def unobserveElement (root : Elem) (e : Elem) (st : RegistryState) : RegistryState :=
  let obs := updateObs st.observers root
    (fun i => { i with confirmedElements := i.confirmedElements.erase e })
  { st with observers := obs }

/-- The handle's `unobserve()` with no argument: `observer.disconnect()` and
`observers.delete(observeElement)` — the whole entry for the root is
removed, unconditionally. -/
def unobserveFull (root : Elem) (st : RegistryState) : RegistryState :=
  { st with observers := st.observers.filter (fun p => p.1 ≠ root) }

/-- Processing of the `addedNodes` of one record, in list order: for each
added node that is an element not yet confirmed, the user callback runs;
`confirm` (modelled by the synchronous decision function `accept`) adds the
element to the confirmed set and emits an `added` event. -/
def processAdded (accept : Elem → Bool) :
    ObserverInfo → List DomNode → ObserverInfo × List Event
  | info, [] => (info, [])
  | info, DomNode.other :: rest => processAdded accept info rest
  | info, DomNode.elem e :: rest =>
      if e ∈ info.confirmedElements then
        processAdded accept info rest
      else if accept e then
        let info' := { info with confirmedElements := info.confirmedElements ++ [e] }
        let (info'', evs) := processAdded accept info' rest
        (info'', (EvType.added, e) :: evs)
      else
        processAdded accept info rest

/-- Processing of the `removedNodes` of one record, in list order: each
removed element that is in the confirmed set is deleted from the set and a
`deleted` event is emitted; with `autoUnobserve`, the native watcher is
additionally disconnected. -/
def processRemoved (autoUnobserve : Bool) :
    ObserverInfo → List DomNode → ObserverInfo × List Event
  | info, [] => (info, [])
  | info, DomNode.other :: rest => processRemoved autoUnobserve info rest
  | info, DomNode.elem e :: rest =>
      if e ∈ info.confirmedElements then
        let info' :=
          { info with
            confirmedElements := info.confirmedElements.erase e,
            connected := if autoUnobserve then false else info.connected }
        let (info'', evs) := processRemoved autoUnobserve info' rest
        (info'', (EvType.deleted, e) :: evs)
      else
        processRemoved autoUnobserve info rest

/-- Processing of one mutation record by the observer callback: childList
records have their added nodes handled, then their removed nodes; other
record types are skipped. -/
def processRecord (accept : Elem → Bool) (autoUnobserve : Bool)
    (info : ObserverInfo) (rec : MutationRecord) : ObserverInfo × List Event :=
  match rec.recType with
  | RecType.otherType => (info, [])
  | RecType.childList =>
      let (info1, evs1) := processAdded accept info rec.addedNodes
      let (info2, evs2) := processRemoved autoUnobserve info1 rec.removedNodes
      (info2, evs1 ++ evs2)

/-- Processing of a whole mutation batch (`mutationsList`), record by record. -/
def processBatch (accept : Elem → Bool) (autoUnobserve : Bool)
    (info : ObserverInfo) : List MutationRecord → ObserverInfo × List Event
  | [] => (info, [])
  | rec :: rest =>
      let (info1, evs1) := processRecord accept autoUnobserve info rec
      let (info2, evs2) := processBatch accept autoUnobserve info1 rest
      (info2, evs1 ++ evs2)

/-- Number of `deleted` notifications for element `e` in an event list. -/
def countDeleted (e : Elem) (evs : List Event) : Nat :=
  (evs.filter (fun ev => ev = (EvType.deleted, e))).length

/-- A batch consisting of a single childList record that only adds `e`. -/
def addBatch (e : Elem) : List MutationRecord :=
  [{ recType := RecType.childList, addedNodes := [DomNode.elem e], removedNodes := [] }]

/-- A batch consisting of a single childList record that only removes `e`. -/
def removeBatch (e : Elem) : List MutationRecord :=
  [{ recType := RecType.childList, addedNodes := [], removedNodes := [DomNode.elem e] }]

end MutationRegistry

/-!
Part 2 models the collapsible-details widget (`src/Details.ts`): a class
holding the details element, its summary and content children, the current
animation handle, and the in-flight direction flags `isClosing` /
`isExpanding`.  Heights are natural numbers; the host's rendering is
modelled by `offsetHeight`, which returns any pinned inline height, else
the collapsed height (summary only) or the expanded height
(summary + content) according to the `open` attribute.  The ghost fields
`running` (identities of animations currently alive on the element) and
`nextId` (fresh animation identity source) instrument the model with what
the browser's animation timeline knows; the Web Animations cancel event
(`oncancel`) is applied at cancellation time, which yields the same
settled state as the browser's asynchronous delivery.
-/

namespace DetailsWidget

/-- One animation created by `el.animate`: the height keyframes, the
duration, the direction its `onfinish` handler commits (`targetOpen`), and
a ghost identity `id`. -/
structure AnimSpec where
  id : Nat
  startH : Nat
  endH : Nat
  duration : Nat
  targetOpen : Bool
deriving DecidableEq, Repr

/-- The state of one Details instance together with its element's DOM
state (open attribute, visible class, inline height/overflow overrides)
and its fixed geometry (summary height, content height, singleton class). -/
structure Sec where
  summaryH : Nat
  contentH : Nat
  singleton : Bool
  openAttr : Bool
  visible : Bool
  isClosing : Bool
  isExpanding : Bool
  anim : Option AnimSpec
  styleHeight : Option Nat
  overflowHidden : Bool
  running : List Nat
  nextId : Nat
deriving DecidableEq, Repr, Inhabited

/-- `el.offsetHeight`: the pinned inline height if set, else the rendered
height — summary plus content when the open attribute is set, summary
alone when closed. -/
def offsetHeight (s : Sec) : Nat :=
  match s.styleHeight with
  | some h => h
  | none => if s.openAttr then s.summaryH + s.contentH else s.summaryH

/-- `this.animation.cancel()`: the animation is removed from the timeline
and its `oncancel` handler resets the direction flag it was set up with
(a cancelled shrink clears `isClosing`, a cancelled expand clears
`isExpanding`). -/
def cancelAnim (s : Sec) : Sec :=
  match s.anim with
  | none => s
  | some a =>
      { s with
        running := s.running.erase a.id,
        isClosing := if a.targetOpen then s.isClosing else false,
        isExpanding := if a.targetOpen then false else s.isExpanding }

/-- `Details.shrink(instant)`: set `isClosing`, measure the start height
(current offsetHeight) and end height (summary height), cancel any
existing animation, then start a new height animation with duration 300
(0 when instant) whose `onfinish` commits the closed state. -/
def shrink (instant : Bool) (s : Sec) : Sec :=
  let s1 := { s with isClosing := true }
  let startHeight := offsetHeight s1
  let endHeight := s1.summaryH
  let s2 := cancelAnim s1
  let a : AnimSpec :=
    { id := s2.nextId, startH := startHeight, endH := endHeight,
      duration := if instant then 0 else 300, targetOpen := false }
  { s2 with anim := some a, running := s2.running ++ [a.id], nextId := s2.nextId + 1 }

/-- `Details.expand(instant)`: set `isExpanding`, measure the start height
(current offsetHeight, normally the pinned pre-open height) and end height
(summary height plus content height), cancel any existing animation, then
start the expanding height animation whose `onfinish` commits the open
state (after refreshing embedded table metrics, which this model omits). -/
def expand (instant : Bool) (s : Sec) : Sec :=
  let s1 := { s with isExpanding := true }
  let startHeight := offsetHeight s1
  let endHeight := s1.summaryH + s1.contentH
  let s2 := cancelAnim s1
  let a : AnimSpec :=
    { id := s2.nextId, startH := startHeight, endH := endHeight,
      duration := if instant then 0 else 300, targetOpen := true }
  { s2 with anim := some a, running := s2.running ++ [a.id], nextId := s2.nextId + 1 }

/-- `Details.open(instant)` restricted to the section itself: pin the
current offsetHeight as inline height, set the open attribute, and (on the
next animation frame) run `expand`.  The singleton fan-out to siblings is
modelled at the group level by `activate`. -/
def openDetails (instant : Bool) (s : Sec) : Sec :=
  let s1 := { s with styleHeight := some (offsetHeight s), openAttr := true }
  expand instant s1

/-- `Details.onAnimationFinish(open)`: commit the open attribute, drop the
animation handle (the finished animation leaves the ghost timeline), clear
both direction flags, toggle the visible class to `open`, and clear the
inline height and overflow overrides. -/
def onAnimationFinish (openFlag : Bool) (s : Sec) : Sec :=
  { s with
    openAttr := openFlag,
    running := match s.anim with
      | some a => s.running.erase a.id
      | none => s.running,
    anim := none,
    isClosing := false,
    isExpanding := false,
    visible := openFlag,
    styleHeight := none,
    overflowHidden := false }

/-- Let the section's in-flight animation (if any) finish: its `onfinish`
handler runs `onAnimationFinish` with the direction it was created with. -/
def finishAnim (s : Sec) : Sec :=
  match s.anim with
  | some a => onAnimationFinish a.targetOpen s
  | none => s

/-- `Details.onClick`: hide overflow, then choose the toggle action from
the open attribute and the in-flight direction flags — `open()` when
`isClosing` or the open attribute is unset, else `shrink()` when
`isExpanding` or the open attribute is set. -/
def onClick (s : Sec) : Sec :=
  let s1 := { s with overflowHidden := true }
  if s1.isClosing || !s1.openAttr then openDetails false s1
  else if s1.isExpanding || s1.openAttr then shrink false s1
  else s1

/-- The state the Details constructor establishes: no animation, both
direction flags clear, geometry and initial open attribute from the host
element. -/
def initSec (summaryHeight contentHeight : Nat) (isSingleton openAtStart : Bool) : Sec :=
  { summaryH := summaryHeight, contentH := contentHeight,
    singleton := isSingleton, openAttr := openAtStart,
    visible := false, isClosing := false, isExpanding := false,
    anim := none, styleHeight := none, overflowHidden := false,
    running := [], nextId := 0 }

/-- The events a single section can receive. -/
inductive SecOp where
  | click
  | shrinkCall (instant : Bool)
  | openCall (instant : Bool)
  | finishCall
deriving DecidableEq, Repr

/-- One event step on a section. -/
def step : SecOp → Sec → Sec
  | SecOp.click, s => onClick s
  | SecOp.shrinkCall b, s => shrink b s
  | SecOp.openCall b, s => openDetails b s
  | SecOp.finishCall, s => finishAnim s

/-- Run a sequence of events on a section. -/
def run (ops : List SecOp) (s : Sec) : Sec :=
  ops.foldl (fun t op => step op t) s

/-- Ghost-timeline agreement: the animations alive on the element are
exactly the one held in the `animation` field, if any. -/
def animWf (s : Sec) : Prop :=
  s.running = (match s.anim with
    | some a => [a.id]
    | none => [])

/-- Map a function over a list with its element index, starting at `k`. -/
def mapWithIndex (f : Nat → Sec → Sec) : Nat → List Sec → List Sec
  | _, [] => []
  | k, s :: rest => f k s :: mapWithIndex f (k + 1) rest

/-- Activation of section `i` of a sibling group (all sections sharing the
parent, as captured in `this.siblings`): section `i` runs `open(instant)`;
when its element carries the singleton class and the captured sibling set
is non-empty (the group has at least two members), every sibling receives
`shrink(instant)` from the fan-out loop in `Details.open`. -/
def activate (i : Nat) (instant : Bool) (g : List Sec) : List Sec :=
  let fanOut := (g.getD i default).singleton && decide (1 < g.length)
  mapWithIndex
    (fun j s =>
      if j = i then openDetails instant s
      else if fanOut then shrink instant s
      else s) 0 g

/-- Settling: every in-flight animation in the group finishes. -/
def settleAll (g : List Sec) : List Sec :=
  g.map finishAnim

/-- Number of sections in the group whose open attribute is set. -/
def countOpen (g : List Sec) : Nat :=
  (g.filter (fun s => s.openAttr)).length

end DetailsWidget

/-!
Part 3 models the CSS custom-property helpers (`setCustomProperty`,
`getCustomProperty`).  A CSS value is a string or a number; a target
element carries an optional style declaration modelled as an association
list (the source guards on `target.style` before writing).  The
floating-point number parse inside `parseCssUnits`
(`Number(parseFloat(value).toFixed(4))`) is abstracted as a numeric-parse
parameter, as no claim depends on the parsed magnitude.
-/

namespace CustomProps

/-- A CSS property value: string or number. -/
inductive CssVal where
  | str (s : String)
  | num (n : Int)
deriving DecidableEq, Repr

/-- A property map: keys are property names, values CSS values. -/
abbrev PropMap := List (String × CssVal)

/-- The `properties` argument of `setCustomProperty`: a single property
name or a property map. -/
inductive PropertyInput where
  | name (p : String)
  | propMap (m : PropMap)
deriving DecidableEq, Repr

/-- A target element: its inline style declaration, if present. -/
structure Target where
  style : Option PropMap
deriving DecidableEq, Repr

/-- The `property.replace` step with the anchored double-hyphen pattern:
strip one leading double hyphen. -/
def stripLeadingDoubleDash (p : String) : String :=
  match p.data with
  | '-' :: '-' :: rest => String.mk rest
  | _ => p

/-- The key actually written: a double hyphen plus the stripped name. -/
def propKey (p : String) : String :=
  "--" ++ stripLeadingDoubleDash p

/-- `style.setProperty(key, v)` on the association-list model: replace the
existing binding for `key` or append a new one. -/
def setStyleProperty (st : PropMap) (key : String) (v : CssVal) : PropMap :=
  match st with
  | [] => [(key, v)]
  | (k, w) :: rest =>
      if k = key then (k, v) :: rest else (k, w) :: setStyleProperty rest key v

/-- Read a key from the style declaration. -/
def lookupStyle (st : PropMap) (key : String) : Option CssVal :=
  match st with
  | [] => none
  | (k, w) :: rest => if k = key then some w else lookupStyle rest key

/-- The write loop of `setCustomProperty`: if the target has a style
declaration, set every entry of the property map under its `--` key. -/
def applyPropMap (target : Target) (m : PropMap) : Target :=
  match target.style with
  | none => target
  | some st =>
      { style := some (m.foldl (fun acc pv => setStyleProperty acc (propKey pv.1) pv.2) st) }

/-- `setCustomProperty(target, properties, value?)`: a string name needs a
defined value, else the call throws; a name with a value writes that one
property; a property map writes all of its entries. -/
def setCustomProperty (target : Target) (properties : PropertyInput)
    (value : Option CssVal) : Except String Target :=
  match properties with
  | PropertyInput.name p =>
      match value with
      | some v => Except.ok (applyPropMap target [(p, v)])
      | none => Except.error "Value must be defined when properties is a string"
  | PropertyInput.propMap m => Except.ok (applyPropMap target m)

/-- The valid CSS length units recognised by `parseCssUnits`. -/
def ValidCssUnits : List String :=
  ["em", "ex", "ch", "rem", "vw", "vh", "vmin", "vmax", "cm", "mm", "in", "px", "pt", "pc"]

/-- `parseCssUnits(value)`: when the string ends with a recognised unit,
parse it to a number (the float parse-and-round is the abstract
`parseNumber`); otherwise return the string unchanged. -/
def parseCssUnits (parseNumber : String → Int) (value : String) : CssVal :=
  if ValidCssUnits.any (fun u => value.endsWith u) then CssVal.num (parseNumber value)
  else CssVal.str value

/-- The numeric test `/^-?\d+$/`: an optional minus then one or more digits. -/
def isIntegerLiteral (s : String) : Bool :=
  match s.data with
  | [] => false
  | '-' :: rest => !rest.isEmpty && rest.all Char.isDigit
  | chars => chars.all Char.isDigit

/-- The result type of `getCustomProperty`: a string, a number, or a map. -/
inductive GetOutput where
  | strOut (s : String)
  | numOut (n : Int)
  | mapOut (m : PropMap)
deriving DecidableEq, Repr

/-- The string entries of the rest-argument list, in order
(`properties.filter(e => typeof e === 'string')`). -/
def propertyNamesOf (properties : List (String ⊕ Bool)) : List String :=
  properties.filterMap (fun a =>
    match a with
    | Sum.inl s => some s
    | Sum.inr _ => none)

/-- `getCustomProperty(target, ...properties)`: the computed style is the
function `computed` from keys to raw values.  The result accumulator
starts as the empty string when exactly one name was passed, else as an
empty map; each looked-up value is trimmed, converted to a number when it
is an integer literal, optionally unit-parsed — and then recorded in the
accumulator only when the accumulator is a map. -/
def getCustomProperty (computed : String → String) (parseNumber : String → Int)
    (properties : List (String ⊕ Bool)) : GetOutput :=
  let shouldParseCssUnits := properties.any (fun a =>
    match a with
    | Sum.inr b => b
    | Sum.inl _ => false)
  let propertyNames := propertyNamesOf properties
  let init : GetOutput :=
    if propertyNames.length = 1 then GetOutput.strOut "" else GetOutput.mapOut []
  propertyNames.foldl
    (fun result property =>
      let value0 := (computed ("--" ++ stripLeadingDoubleDash property)).trim
      let value1 : CssVal :=
        if isIntegerLiteral value0 then CssVal.num ((value0.toInt?).getD 0)
        else CssVal.str value0
      let value2 : CssVal :=
        match value1 with
        | CssVal.str s =>
            if shouldParseCssUnits then parseCssUnits parseNumber s else CssVal.str s
        | CssVal.num n => CssVal.num n
      match result with
      | GetOutput.mapOut m => GetOutput.mapOut (setStyleProperty m property value2)
      | other => other)
    init

end CustomProps

/-!
Part 4: concrete scenario states used by the theorems below.
-/

namespace DetailsWidget

/-- A section that starts open (geometry: summary 40, content 160) and is
mid-way through a shrink transition: `isClosing` is set, the open attribute
is still set (it is only cleared when the animation finishes), and the
closing height animation is in flight. -/
def closingSec : Sec := shrink false (initSec 40 160 false true)

/-- A two-member singleton sibling group: section 0 closed, section 1 open. -/
def sampleGroup : List Sec :=
  [initSec 40 160 true false, initSec 30 100 true true]

end DetailsWidget

open MutationRegistry DetailsWidget CustomProps

/-- C1: calling the registry subscribe function twice with the same root
creates exactly one underlying native MutationObserver: starting from any
state with no entry for the root, the pair of calls raises the created
count by exactly one (the first call creates the watcher), and the second
call finds the existing entry — afterwards the root maps to the one entry,
now shared by two subscribers. -/
theorem subscribe_twice_one_watcher (st : RegistryState) (root : Elem)
    (h : lookupObs st.observers root = none) :
    (subscribe root (subscribe root st)).created = st.created + 1
    ∧ (subscribe root st).created = st.created + 1
    ∧ lookupObs (subscribe root (subscribe root st)).observers root
        = some { confirmedElements := [], connected := true, subscribers := 2 } := by
  simp [subscribe, h, lookupObs, updateObs]

/-- Witness for C1 at the empty registry and root 0. -/
theorem subscribe_twice_one_watcher_witness :
    (subscribe 0 (subscribe 0 initRegistry)).created = initRegistry.created + 1
    ∧ (subscribe 0 initRegistry).created = initRegistry.created + 1
    ∧ lookupObs (subscribe 0 (subscribe 0 initRegistry)).observers 0
        = some { confirmedElements := [], connected := true, subscribers := 2 } :=
  subscribe_twice_one_watcher initRegistry 0 rfl

/-- Processing a batch whose single record removes a confirmed element:
the element leaves the confirmed set, exactly one deleted event is
emitted, and the watcher is disconnected exactly when autoUnobserve is
set. -/
theorem processBatch_removeBatch (accept : Elem → Bool) (autoU : Bool)
    (info : ObserverInfo) (E : Elem) (h : E ∈ info.confirmedElements) :
    processBatch accept autoU info (removeBatch E)
      = ({ info with
            confirmedElements := info.confirmedElements.erase E,
            connected := if autoU then false else info.connected },
         [(EvType.deleted, E)]) := by
  simp [processBatch, processRecord, processAdded, processRemoved, removeBatch, h]

/-- Processing a batch whose single record adds an unconfirmed element the
filter accepts: the element joins the confirmed set and one added event is
emitted. -/
theorem processBatch_addBatch (accept : Elem → Bool) (autoU : Bool)
    (info : ObserverInfo) (E : Elem) (hmem : E ∉ info.confirmedElements)
    (hacc : accept E = true) :
    processBatch accept autoU info (addBatch E)
      = ({ info with confirmedElements := info.confirmedElements ++ [E] },
         [(EvType.added, E)]) := by
  simp [processBatch, processRecord, processAdded, processRemoved, addBatch, hmem, hacc]

/-- C2: from a fresh entry, confirming element E exactly once (an add
batch the filter accepts) and then receiving a removal record for E yields
exactly one deleted notification and removes E from the confirmed set;
confirming E again after its deletion re-arms it, so a later removal
record for E yields another deleted notification. -/
theorem confirm_remove_reconfirm (E : Elem) (accept : Elem → Bool)
    (hacc : accept E = true) :
    let info0 : ObserverInfo := { confirmedElements := [], connected := true, subscribers := 1 }
    let r1 := processBatch accept false info0 (addBatch E)
    let r2 := processBatch accept false r1.1 (removeBatch E)
    let r3 := processBatch accept false r2.1 (addBatch E)
    let r4 := processBatch accept false r3.1 (removeBatch E)
    r1.1.confirmedElements = [E]
    ∧ countDeleted E r2.2 = 1
    ∧ r2.1.confirmedElements = []
    ∧ r3.1.confirmedElements = [E]
    ∧ countDeleted E r4.2 = 1 := by
  simp [processBatch, processRecord, processAdded, processRemoved,
    addBatch, removeBatch, hacc, countDeleted]

/-- Witness for C2 at element 7 with an accept-everything filter. -/
theorem confirm_remove_reconfirm_witness :
    let info0 : ObserverInfo := { confirmedElements := [], connected := true, subscribers := 1 }
    let r1 := processBatch (fun _ => true) false info0 (addBatch 7)
    let r2 := processBatch (fun _ => true) false r1.1 (removeBatch 7)
    let r3 := processBatch (fun _ => true) false r2.1 (addBatch 7)
    let r4 := processBatch (fun _ => true) false r3.1 (removeBatch 7)
    r1.1.confirmedElements = [7]
    ∧ countDeleted 7 r2.2 = 1
    ∧ r2.1.confirmedElements = []
    ∧ r3.1.confirmedElements = [7]
    ∧ countDeleted 7 r4.2 = 1 :=
  confirm_remove_reconfirm 7 (fun _ => true) rfl

/-- After a full unobserve for a root, looking that root up fails. -/
theorem lookupObs_filter_self (m : List (Elem × ObserverInfo)) (root : Elem) :
    lookupObs (m.filter (fun p => p.1 ≠ root)) root = none := by
  induction m with
  | nil => rfl
  | cons hd tl ih =>
      obtain ⟨r, info⟩ := hd
      simp only [ne_eq, decide_not] at ih ⊢
      by_cases h : r = root
      · simpa [List.filter_cons, h] using ih
      · simp [List.filter_cons, h, lookupObs, ih]

/-- A full unobserve for one root leaves other roots' entries alone. -/
theorem lookupObs_filter_other (m : List (Elem × ObserverInfo)) (root r2 : Elem)
    (hne : r2 ≠ root) :
    lookupObs (m.filter (fun p => p.1 ≠ root)) r2 = lookupObs m r2 := by
  induction m with
  | nil => rfl
  | cons hd tl ih =>
      obtain ⟨r, info⟩ := hd
      simp only [ne_eq, decide_not] at ih ⊢
      by_cases h : r = root
      · subst h
        simp [List.filter_cons, lookupObs, ih, Ne.symm hne]
      · by_cases h2 : r = r2 <;>
          simp [List.filter_cons, h, h2, lookupObs, ih, hne]

/-- C3 counterexample: with two subscribers sharing the entry for root 0,
one subscriber's no-argument unobserve destroys the watch although the
other subscriber remains — afterwards no entry for root 0 exists. -/
theorem unobserve_while_second_subscriber_remains :
    (lookupObs (subscribe 0 (subscribe 0 initRegistry)).observers 0).map
        ObserverInfo.subscribers = some 2
    ∧ lookupObs (unobserveFull 0 (subscribe 0 (subscribe 0 initRegistry))).observers 0
        = none := by
  constructor
  · rfl
  · rfl

/-- C3 amended: a no-argument unobserve from any subscriber tears down the
whole entry for its root unconditionally — regardless of how many
subscribers the entry has — while entries for other roots are untouched. -/
theorem unobserveFull_teardown (st : RegistryState) (root r2 : Elem)
    (hne : r2 ≠ root) :
    lookupObs (unobserveFull root st).observers root = none
    ∧ lookupObs (unobserveFull root st).observers r2 = lookupObs st.observers r2 := by
  exact ⟨lookupObs_filter_self st.observers root,
    lookupObs_filter_other st.observers root r2 hne⟩

/-- Witness for the amended C3 with entries for roots 0 and 1. -/
theorem unobserveFull_teardown_witness :
    lookupObs (unobserveFull 0 (subscribe 1 (subscribe 0 initRegistry))).observers 0 = none
    ∧ lookupObs (unobserveFull 0 (subscribe 1 (subscribe 0 initRegistry))).observers 1
        = lookupObs (subscribe 1 (subscribe 0 initRegistry)).observers 1 :=
  unobserveFull_teardown (subscribe 1 (subscribe 0 initRegistry)) 0 1 (by decide)

/-- C7: with autoUnobserve set, a removal record for an element in the
confirmed set emits exactly one deleted notification, removes the element
from the confirmed set, and disconnects the entire native watcher of that
root — a global teardown, not one scoped to the removed element. -/
theorem autoUnobserve_global_teardown (E : Elem) (accept : Elem → Bool)
    (info : ObserverInfo) (hmem : E ∈ info.confirmedElements)
    (hnodup : info.confirmedElements.Nodup) :
    let r := processBatch accept true info (removeBatch E)
    countDeleted E r.2 = 1
    ∧ E ∉ r.1.confirmedElements
    ∧ r.1.connected = false := by
  intro r
  have hr : r = ({ info with
        confirmedElements := info.confirmedElements.erase E,
        connected := false },
      [(EvType.deleted, E)]) := by
    simpa using processBatch_removeBatch accept true info E hmem
  refine ⟨?_, ?_, ?_⟩
  · rw [hr]; simp [countDeleted]
  · rw [hr]
    simpa using fun hcontra => (hnodup.mem_erase_iff.mp hcontra).1 rfl
  · rw [hr]

/-- Witness for C7: entry with confirmed elements 1 and 2, removing 1. -/
theorem autoUnobserve_global_teardown_witness :
    let r := processBatch (fun _ => false) true
      { confirmedElements := [1, 2], connected := true, subscribers := 1 } (removeBatch 1)
    countDeleted 1 r.2 = 1
    ∧ 1 ∉ r.1.confirmedElements
    ∧ r.1.connected = false :=
  autoUnobserve_global_teardown 1 (fun _ => false)
    { confirmedElements := [1, 2], connected := true, subscribers := 1 }
    (by decide) (by decide)

/-- A shrink call always starts a closing-direction animation ending at
the summary height. -/
theorem shrink_starts_closing (b : Bool) (s : Sec) :
    ((shrink b s).anim).map AnimSpec.targetOpen = some false
    ∧ ((shrink b s).anim).map AnimSpec.endH = some s.summaryH := by
  constructor <;> rfl

/-- An open call always starts an expanding-direction animation ending at
summary height plus content height. -/
theorem openDetails_starts_expanding (b : Bool) (s : Sec) :
    ((openDetails b s).anim).map AnimSpec.targetOpen = some true
    ∧ ((openDetails b s).anim).map AnimSpec.endH = some (s.summaryH + s.contentH) := by
  constructor <;> rfl

/-- C4 counterexample: a section mid-way through Closing (isClosing set,
open attribute still set) whose header is clicked gets an expanding
animation toward the full height, not the shrink the claim asserts. -/
theorem click_while_closing_expands :
    closingSec.isClosing = true
    ∧ closingSec.openAttr = true
    ∧ ((onClick closingSec).anim).map AnimSpec.targetOpen = some true
    ∧ ((onClick closingSec).anim).map AnimSpec.endH
        = some (closingSec.summaryH + closingSec.contentH)
    ∧ ¬ ((onClick closingSec).anim).map AnimSpec.targetOpen = some false := by
  decide

/-- C4 amended: the click chooses expand exactly when isClosing is set or
the open attribute is unset, and shrink otherwise — an in-progress Closing
is treated as effectively closed (the click applies expand, reversing the
close), and an in-progress Opening, whose open attribute is already set,
is treated as effectively open (the click applies shrink). -/
theorem click_toggle_direction (s : Sec) :
    (s.isClosing = true → ((onClick s).anim).map AnimSpec.targetOpen = some true)
    ∧ (s.isClosing = false → s.isExpanding = true → s.openAttr = true →
        ((onClick s).anim).map AnimSpec.targetOpen = some false)
    ∧ (s.isClosing = false → s.isExpanding = false →
        ((onClick s).anim).map AnimSpec.targetOpen = some (!s.openAttr)) := by
  refine ⟨fun h1 => ?_, fun h1 h2 h3 => ?_, fun h1 h2 => ?_⟩
  · simp only [onClick, h1]
    simp [(openDetails_starts_expanding false _).1]
  · simp only [onClick, h1, h3]
    simp [(shrink_starts_closing false _).1]
  · cases ho : s.openAttr
    · simp only [onClick, h1, ho]
      simp [(openDetails_starts_expanding false _).1]
    · simp only [onClick, h1, h2, ho]
      simp [(shrink_starts_closing false _).1]

/-- Witness for the amended C4 at the mid-closing section. -/
theorem click_toggle_direction_witness :
    ((onClick closingSec).anim).map AnimSpec.targetOpen = some true :=
  (click_toggle_direction closingSec).1 rfl

/-- Letting the animation of a fresh shrink call finish leaves the section
with the open attribute cleared. -/
theorem finish_shrink_closed (b : Bool) (s : Sec) :
    (finishAnim (shrink b s)).openAttr = false := by
  rfl

/-- Letting the animation of a fresh open call finish leaves the section
with the open attribute set. -/
theorem finish_open_opened (b : Bool) (s : Sec) :
    (finishAnim (openDetails b s)).openAttr = true := by
  rfl

/-- Open-section count of a cons cell. -/
theorem countOpen_cons (s : Sec) (g : List Sec) :
    countOpen (s :: g) = (if s.openAttr then 1 else 0) + countOpen g := by
  by_cases h : s.openAttr = true <;> simp [countOpen, List.filter_cons, h, Nat.add_comm]

/-- Reading an entry of an indexed map. -/
theorem mapWithIndex_getD (f : Nat → Sec → Sec) :
    ∀ (g : List Sec) (k j : Nat), j < g.length →
      (mapWithIndex f k g).getD j default = f (k + j) (g.getD j default) := by
  intro g
  induction g with
  | nil => intro k j h; simp at h
  | cons s rest ih =>
      intro k j h
      cases j with
      | zero => simp [mapWithIndex]
      | succ j' =>
          have hj : j' < rest.length := by simpa using h
          have := ih (k + 1) j' hj
          have harith : k + 1 + j' = k + (j' + 1) := by omega
      
          simpa [mapWithIndex, harith] using this

/-- After activating index i of a group where every other member is
shrunk, settling leaves exactly one member open when i is in range. -/
theorem settle_activate_count (instant : Bool) (i : Nat) :
    ∀ (g : List Sec) (k : Nat),
      countOpen (List.map finishAnim (mapWithIndex
        (fun j s => if j = i then openDetails instant s else shrink instant s) k g))
        = if k ≤ i ∧ i < k + g.length then 1 else 0 := by
  intro g
  induction g with
  | nil =>
      intro k
      have hcond : ¬ (k ≤ i ∧ i < k) := by omega
      simp [mapWithIndex, countOpen, hcond]
  | cons s rest ih =>
      intro k
      simp only [mapWithIndex, List.map_cons, countOpen_cons, List.length_cons]
      by_cases hk : k = i
      · subst hk
        simp [finish_open_opened, ih]
      · simp [hk, finish_shrink_closed, ih]
        split_ifs <;> omega

/-- C5: activating a section that carries the singleton marker in a group
with at least one other member triggers a shrink call on every other open
sibling, and once all started animations settle at most one member of the
group is open. -/
theorem singleton_activation (g : List Sec) (i j : Nat) (instant : Bool)
    (hi : i < g.length)
    (hsing : (g.getD i default).singleton = true)
    (hlen : 1 < g.length)
    (hj : j < g.length) (hjne : j ≠ i)
    (hjopen : (g.getD j default).openAttr = true) :
    (activate i instant g).getD j default = shrink instant (g.getD j default)
    ∧ countOpen (settleAll (activate i instant g)) ≤ 1 := by
  have hsing2 : (g[i]?.getD default).singleton = true := by
    simpa [List.getD] using hsing
  have hfun : activate i instant g
      = mapWithIndex
          (fun j s => if j = i then openDetails instant s else shrink instant s) 0 g := by
    unfold activate
    simp [hsing, hsing2, hlen]
  constructor
  · rw [hfun, mapWithIndex_getD _ g 0 j hj]
    simp [hjne]
  · rw [hfun]
    have hcount := settle_activate_count instant i g 0
    have hpos : 0 ≤ i ∧ i < 0 + g.length := by omega
    simp only [settleAll]
    rw [hcount, if_pos hpos]

/-- Witness for C5 on the two-member singleton group. -/
theorem singleton_activation_witness :
    (activate 0 false sampleGroup).getD 1 default
        = shrink false (sampleGroup.getD 1 default)
    ∧ countOpen (settleAll (activate 0 false sampleGroup)) ≤ 1 :=
  singleton_activation sampleGroup 0 1 false (by decide) (by decide) (by decide)
    (by decide) (by decide) (by decide)

/-- A shrink call leaves the timeline well-formed: the cancel removes the
old handle before the new animation is registered. -/
theorem animWf_shrink (b : Bool) (s : Sec) (h : animWf s) : animWf (shrink b s) := by
  cases ha : s.anim with
  | none =>
      simp [animWf, ha] at h
      simp [animWf, shrink, cancelAnim, ha, h]
  | some a =>
      simp [animWf, ha] at h
      simp [animWf, shrink, cancelAnim, ha, h, List.erase_cons_head]

/-- An expand call leaves the timeline well-formed. -/
theorem animWf_expand (b : Bool) (s : Sec) (h : animWf s) : animWf (expand b s) := by
  cases ha : s.anim with
  | none =>
      simp [animWf, ha] at h
      simp [animWf, expand, cancelAnim, ha, h]
  | some a =>
      simp [animWf, ha] at h
      simp [animWf, expand, cancelAnim, ha, h, List.erase_cons_head]

/-- An open call leaves the timeline well-formed. -/
theorem animWf_openDetails (b : Bool) (s : Sec) (h : animWf s) :
    animWf (openDetails b s) := by
  unfold openDetails
  apply animWf_expand
  simpa [animWf] using h

/-- Letting an animation finish leaves the timeline well-formed. -/
theorem animWf_finish (s : Sec) (h : animWf s) : animWf (finishAnim s) := by
  cases ha : s.anim with
  | none => simpa [finishAnim, ha] using h
  | some a =>
      simp [animWf, ha] at h
      simp [animWf, finishAnim, onAnimationFinish, ha, h, List.erase_cons_head]

/-- A header click leaves the timeline well-formed. -/
theorem animWf_click (s : Sec) (h : animWf s) : animWf (onClick s) := by
  unfold onClick
  have h1 : animWf { s with overflowHidden := true } := by simpa [animWf] using h
  by_cases hc : ({ s with overflowHidden := true } : Sec).isClosing
      || !({ s with overflowHidden := true } : Sec).openAttr
  · simp only [hc, if_true]
    exact animWf_openDetails false _ h1
  · simp only [hc, if_false]
    by_cases hc2 : ({ s with overflowHidden := true } : Sec).isExpanding
        || ({ s with overflowHidden := true } : Sec).openAttr
    · simp only [hc2, if_true]
      exact animWf_shrink false _ h1
    · simp only [hc2, if_false]
      exact h1

/-- Every event step preserves timeline well-formedness. -/
theorem animWf_step (op : SecOp) (s : Sec) (h : animWf s) : animWf (step op s) := by
  cases op with
  | click => exact animWf_click s h
  | shrinkCall b => exact animWf_shrink b s h
  | openCall b => exact animWf_openDetails b s h
  | finishCall => exact animWf_finish s h

/-- Any event run from a well-formed section stays well-formed. -/
theorem animWf_run (ops : List SecOp) :
    ∀ (s : Sec), animWf s → animWf (run ops s) := by
  induction ops with
  | nil => intro s h; simpa [run] using h
  | cons op rest ih =>
      intro s h
      have : run (op :: rest) s = run rest (step op s) := by simp [run]
      rw [this]
      exact ih (step op s) (animWf_step op s h)

/-- C6: along every event sequence from a freshly constructed section, at
most one animation is alive on the element at any time — each transition
start cancels the previous handle before creating its own. -/
theorem one_animation_in_flight (ops : List SecOp) (summaryHeight contentHeight : Nat)
    (isSingleton openAtStart : Bool) :
    ((run ops (initSec summaryHeight contentHeight isSingleton openAtStart)).running).length
      ≤ 1 := by
  have h0 : animWf (initSec summaryHeight contentHeight isSingleton openAtStart) := by
    simp [animWf, initSec]
  have h := animWf_run ops _ h0
  cases ha : (run ops (initSec summaryHeight contentHeight isSingleton openAtStart)).anim with
  | none => simp [animWf, ha] at h; simp [h]
  | some a => simp [animWf, ha] at h; simp [h]

/-- C8: activating a closed section with summary height 40 and content
height 160 (by click or by the open entry point) starts a height animation
from 40 to 200 with duration 300, or duration 0 with the instant flag;
when that animation finishes the open attribute is set and the visible
class is on. -/
theorem expand_geometry_scenario :
    (openDetails false (initSec 40 160 false false)).anim
        = some { id := 0, startH := 40, endH := 200, duration := 300, targetOpen := true }
    ∧ (onClick (initSec 40 160 false false)).anim
        = some { id := 0, startH := 40, endH := 200, duration := 300, targetOpen := true }
    ∧ ((openDetails true (initSec 40 160 false false)).anim).map AnimSpec.duration
        = some 0
    ∧ (finishAnim (openDetails false (initSec 40 160 false false))).openAttr = true
    ∧ (finishAnim (openDetails false (initSec 40 160 false false))).visible = true := by
  decide

/-- Setting a style property makes it readable under its key. -/
theorem lookupStyle_set_self (st : PropMap) (k : String) (v : CssVal) :
    lookupStyle (setStyleProperty st k v) k = some v := by
  induction st with
  | nil => simp [setStyleProperty, lookupStyle]
  | cons hd tl ih =>
      obtain ⟨k0, w0⟩ := hd
      by_cases h : k0 = k <;> simp [setStyleProperty, lookupStyle, h, ih]

/-- Setting a style property leaves other keys unchanged. -/
theorem lookupStyle_set_other (st : PropMap) (k k2 : String) (v : CssVal)
    (h : k2 ≠ k) :
    lookupStyle (setStyleProperty st k v) k2 = lookupStyle st k2 := by
  induction st with
  | nil => simp [setStyleProperty, lookupStyle, Ne.symm h]
  | cons hd tl ih =>
      obtain ⟨k0, w0⟩ := hd
      by_cases h0 : k0 = k
      · subst h0
        simp [setStyleProperty, lookupStyle, Ne.symm h]
      · by_cases h2 : k0 = k2 <;> simp [setStyleProperty, lookupStyle, h0, h2, ih, h]

/-- Folding property writes whose keys avoid a given key leaves that key's
binding unchanged. -/
theorem lookupStyle_fold_notmem (m : PropMap) :
    ∀ (st : PropMap) (key : String), key ∉ m.map (fun pv => propKey pv.1) →
    lookupStyle (m.foldl (fun acc pv => setStyleProperty acc (propKey pv.1) pv.2) st) key
      = lookupStyle st key := by
  induction m with
  | nil => intro st key _; rfl
  | cons hd tl ih =>
      intro st key h
      simp only [List.map_cons, List.mem_cons] at h
      push_neg at h
      rw [List.foldl_cons, ih _ key h.2, lookupStyle_set_other _ _ _ _ h.1]

/-- If the written keys of a property map are pairwise distinct, every
entry of the map is readable after the fold of writes. -/
theorem lookupStyle_fold_mem (m : PropMap) :
    ∀ (st : PropMap) (q : String) (w : CssVal),
    (m.map (fun pv => propKey pv.1)).Nodup → (q, w) ∈ m →
    lookupStyle (m.foldl (fun acc pv => setStyleProperty acc (propKey pv.1) pv.2) st)
        (propKey q) = some w := by
  induction m with
  | nil => intro st q w _ hmem; simp at hmem
  | cons hd tl ih =>
      intro st q w hnodup hmem
      obtain ⟨q0, w0⟩ := hd
      simp only [List.map_cons, List.nodup_cons] at hnodup
      rcases List.mem_cons.mp hmem with heq | htl
      · injection heq with h1 h2
        subst h1
        subst h2
        rw [List.foldl_cons, lookupStyle_fold_notmem tl _ _ hnodup.1,
          lookupStyle_set_self]
      · rw [List.foldl_cons]
        exact ih _ q w hnodup.2 htl

/-- C9: setCustomProperty throws exactly on the string-name-without-value
shape; a string name with a value and a property map both succeed and set
each given custom property (under its double-hyphen key) on the target. -/
theorem setCustomProperty_spec (t : Target) (st : PropMap) (p : String) (v : CssVal)
    (m : PropMap) (vOpt : Option CssVal) (q : String) (w : CssVal)
    (hst : t.style = some st)
    (hkeys : (m.map (fun pv => propKey pv.1)).Nodup)
    (hqm : (q, w) ∈ m) :
    setCustomProperty t (PropertyInput.name p) none
        = Except.error "Value must be defined when properties is a string"
    ∧ setCustomProperty t (PropertyInput.name p) (some v)
        = Except.ok (applyPropMap t [(p, v)])
    ∧ (applyPropMap t [(p, v)]).style.map (fun s2 => lookupStyle s2 (propKey p))
        = some (some v)
    ∧ setCustomProperty t (PropertyInput.propMap m) vOpt
        = Except.ok (applyPropMap t m)
    ∧ (applyPropMap t m).style.map (fun s2 => lookupStyle s2 (propKey q))
        = some (some w) := by
  refine ⟨rfl, rfl, ?_, rfl, ?_⟩
  · simp [applyPropMap, hst, lookupStyle_set_self]
  · have hfold := lookupStyle_fold_mem m st q w hkeys hqm
    simp [applyPropMap, hst, hfold]

/-- Witness for C9 on a target with an empty style declaration. -/
theorem setCustomProperty_spec_witness :
    setCustomProperty { style := some [] } (PropertyInput.name "nav-bar-height") none
        = Except.error "Value must be defined when properties is a string"
    ∧ setCustomProperty { style := some [] } (PropertyInput.name "nav-bar-height")
          (some (CssVal.num 200))
        = Except.ok (applyPropMap { style := some [] } [("nav-bar-height", CssVal.num 200)])
    ∧ (applyPropMap { style := some [] } [("nav-bar-height", CssVal.num 200)]).style.map
          (fun s2 => lookupStyle s2 (propKey "nav-bar-height"))
        = some (some (CssVal.num 200))
    ∧ setCustomProperty { style := some [] }
          (PropertyInput.propMap [("a", CssVal.str "x"), ("--b", CssVal.num 2)]) none
        = Except.ok (applyPropMap { style := some [] }
            [("a", CssVal.str "x"), ("--b", CssVal.num 2)])
    ∧ (applyPropMap { style := some [] }
          [("a", CssVal.str "x"), ("--b", CssVal.num 2)]).style.map
          (fun s2 => lookupStyle s2 (propKey "a"))
        = some (some (CssVal.str "x")) :=
  setCustomProperty_spec { style := some [] } [] "nav-bar-height" (CssVal.num 200)
    [("a", CssVal.str "x"), ("--b", CssVal.num 2)] none "a" (CssVal.str "x")
    rfl (by decide) (by decide)

/-- C10: getCustomProperty called with exactly one string property name
returns the empty string regardless of the computed style and of unit
parsing: the single-name accumulator starts as the empty string and the
recording branch requires a map accumulator, so the looked-up value is
discarded. -/
theorem getCustomProperty_single_name_empty (computed : String → String)
    (parseNumber : String → Int) (properties : List (String ⊕ Bool)) (p : String)
    (h : propertyNamesOf properties = [p]) :
    getCustomProperty computed parseNumber properties = GetOutput.strOut "" := by
  unfold getCustomProperty
  rw [h]
  simp

/-- Witness for C10 at a computed style that does hold a value. -/
theorem getCustomProperty_single_name_empty_witness :
    getCustomProperty (fun _ => "200px") (fun _ => 200) [Sum.inl "nav-bar-height"]
      = GetOutput.strOut "" :=
  getCustomProperty_single_name_empty (fun _ => "200px") (fun _ => 200)
    [Sum.inl "nav-bar-height"] "nav-bar-height" rfl
